import Mathlib

/-!
Verification of the macro resource adapter
(`src/zendesk/resource_zendesk_macro.go`).

The Go file defines a Terraform-style CRUD adapter for a remote "macro"
entity: a decode function `unmarshalMacro` (attribute bag → Macro), an
encode function `marshalMacro` (Macro → attribute bag), and four
lifecycle operations `createMacro`, `readMacro`, `updateMacro`,
`deleteMacro` over a remote-API capability interface.

The attribute-bag accessor interface (`identifiableGetterSetter`) and the
bag-write helper `setSchemaFields` are declared in the repository but not
among the provided source files; they are modelled from the spec: the bag
maps field names to schema-typed values with a presence bit
(`GetOk(key) → (value, presentBool)`) and carries a mutable string
identifier slot (`Id() → string`, `SetId(string)`); bag writes succeed.
Remote calls are made observable by logging them into a call trace.
-/

namespace ZendeskMacro

/-- A macro action record: the `{field, value}` pair of the `actions`
list (`client.MacroAction` with the two string fields the adapter reads). -/
structure MacroAction where
  field : String
  value : String
deriving DecidableEq

/-- The remote entity `client.Macro`, restricted to the seven fields plus
the id that the adapter reads and writes.  Defaults are Go's zero values,
so `{}` is Go's `client.Macro{}`. -/
structure Macro where
  ID : Int := 0
  URL : String := ""
  Title : String := ""
  Description : String := ""
  Position : Int := 0
  Active : Bool := false
  Restriction : String := ""
  Actions : List MacroAction := []
deriving DecidableEq

/-- Modelled from the spec: the Attribute Bag behind the
`identifiableGetterSetter` interface, which is not among the provided
source files.  Each schema field is either absent (`none`, `GetOk`
returns false) or present with a value of its declared schema type;
`id` is the mutable identifier slot (empty string until set). -/
structure AttributeBag where
  id : String := ""
  url : Option String := none
  title : Option String := none
  description : Option String := none
  position : Option Int := none
  restriction : Option String := none
  active : Option Bool := none
  actions : Option (List MacroAction) := none
deriving DecidableEq

/-! ### Base-10 64-bit integer parsing and printing

`strconv.ParseInt(v, 10, 64)` and `fmt.Sprintf("%d", id)`. -/

/-- Decimal digit value of a character, if it is one ('0'..'9'). -/
def digitVal? (c : Char) : Option Nat :=
  if 48 ≤ c.toNat ∧ c.toNat ≤ 57 then some (c.toNat - 48) else none

/-- Big-endian decimal digits to a number, with accumulator; fails on a
non-digit character. -/
def digitsVal? : List Char → Nat → Option Nat
  | [], acc => some acc
  | c :: cs, acc =>
    match digitVal? c with
    | some v => digitsVal? cs (acc * 10 + v)
    | none => none

/-- Largest int64 value, `2^63 - 1`. -/
def int64Max : Int := 2 ^ 63 - 1

/-- Smallest int64 value, `-2^63`. -/
def int64Min : Int := -(2 ^ 63)

/-- Digits-and-sign part of `strconv.ParseInt`: requires at least one
digit, all characters digits, and the signed value within int64 range
(Go reports out-of-range input as an error). -/
def parseInt64Core (ds : List Char) (neg : Bool) : Option Int :=
  match ds with
  | [] => none
  | _ :: _ =>
    match digitsVal? ds 0 with
    | none => none
    | some n =>
      let v : Int := if neg then -(n : Int) else (n : Int)
      if int64Min ≤ v ∧ v ≤ int64Max then some v else none

/-- `strconv.ParseInt(s, 10, 64)`: optional single leading '-' or '+',
then one or more decimal digits, value within int64 range.  `none` is
Go's non-nil error. -/
def parseInt64 (s : String) : Option Int :=
  match s.data with
  | [] => none
  | c :: cs =>
    if c = '-' then parseInt64Core cs true
    else if c = '+' then parseInt64Core cs false
    else parseInt64Core (c :: cs) false

/-- The character of one decimal digit (digits ≥ 9 all render '9';
callers only pass values below 10). -/
def digitChar (d : Nat) : Char :=
  match d with
  | 0 => '0'
  | 1 => '1'
  | 2 => '2'
  | 3 => '3'
  | 4 => '4'
  | 5 => '5'
  | 6 => '6'
  | 7 => '7'
  | 8 => '8'
  | _ => '9'

/-- Little-endian decimal digits of `n`, empty for 0; `fuel` bounds the
recursion (callers pass `fuel ≥ n`). -/
def natToRevDigitsAux (fuel n : Nat) : List Char :=
  match fuel with
  | 0 => []
  | f + 1 =>
    if n = 0 then [] else digitChar (n % 10) :: natToRevDigitsAux f (n / 10)

/-- Little-endian decimal digits of `n` (empty for 0). -/
def natToRevDigits (n : Nat) : List Char :=
  natToRevDigitsAux n n

/-- Big-endian decimal rendering of a natural number ("0" for 0). -/
def natDecimalChars (n : Nat) : List Char :=
  if n = 0 then ['0'] else (natToRevDigits n).reverse

/-- `fmt.Sprintf("%d", v)` as a character list: optional '-' then the
decimal digits. -/
def intDecimalChars (v : Int) : List Char :=
  if v < 0 then '-' :: natDecimalChars (-v).toNat else natDecimalChars v.toNat

/-- `fmt.Sprintf("%d", v)`. -/
def intDecimalString (v : Int) : String :=
  ⟨intDecimalChars v⟩

/-! ### The mapper: unmarshalMacro and marshalMacro -/

/-- `if v, ok := d.GetOk("url"); ok { m.URL = v.(string) }`. -/
def setURLIfPresent (m : Macro) (o : Option String) : Macro :=
  match o with
  | some v => { m with URL := v }
  | none => m

/-- `if v, ok := d.GetOk("title"); ok { m.Title = v.(string) }`. -/
def setTitleIfPresent (m : Macro) (o : Option String) : Macro :=
  match o with
  | some v => { m with Title := v }
  | none => m

/-- `if v, ok := d.GetOk("description"); ok { m.Description = v.(string) }`. -/
def setDescriptionIfPresent (m : Macro) (o : Option String) : Macro :=
  match o with
  | some v => { m with Description := v }
  | none => m

/-- `if v, ok := d.GetOk("position"); ok { m.Position = v.(int) }`. -/
def setPositionIfPresent (m : Macro) (o : Option Int) : Macro :=
  match o with
  | some v => { m with Position := v }
  | none => m

/-- `if v, ok := d.GetOk("active"); ok { m.Active = v.(bool) }`. -/
def setActiveIfPresent (m : Macro) (o : Option Bool) : Macro :=
  match o with
  | some v => { m with Active := v }
  | none => m

/-- `if v, ok := d.GetOk("restriction"); ok { m.Restriction = v.(string) }`. -/
def setRestrictionIfPresent (m : Macro) (o : Option String) : Macro :=
  match o with
  | some v => { m with Restriction := v }
  | none => m

/-- `if v, ok := d.GetOk("actions"); ok { for ... m.Actions = append(...) }`:
appends the bag's action records in bag-list order. -/
def appendActionsIfPresent (m : Macro) (o : Option (List MacroAction)) : Macro :=
  match o with
  | some l => { m with Actions := m.Actions ++ l }
  | none => m

/-- `unmarshalMacro`: parses the provided bag and returns a macro.  If
the identifier slot is non-empty it is parsed as a base-10 int64 (error
on failure); each schema field is read only when present (`GetOk`), in
the source's order (url, title, description, position, active,
restriction, actions); actions are appended in bag-list order. -/
def unmarshalMacro (d : AttributeBag) : Except String Macro :=
  match
    (if d.id = "" then Except.ok ({} : Macro)
     else
       match parseInt64 d.id with
       | none => Except.error ("could not parse ticket field id " ++ d.id)
       | some i => Except.ok { ID := i }) with
  | Except.error e => Except.error e
  | Except.ok m0 =>
    Except.ok (appendActionsIfPresent
      (setRestrictionIfPresent
        (setActiveIfPresent
          (setPositionIfPresent
            (setDescriptionIfPresent
              (setTitleIfPresent
                (setURLIfPresent m0 d.url)
                d.title)
              d.description)
            d.position)
          d.active)
        d.restriction)
      d.actions)

/-- `marshalMacro`: encodes the provided macro into the provided bag.
Writes all seven schema fields unconditionally; the identifier slot is
not touched.  `setSchemaFields` is modelled from the spec (bag writes
succeed), so no error case arises. -/
def marshalMacro (m : Macro) (d : AttributeBag) : AttributeBag :=
  { d with
    url := some m.URL
    title := some m.Title
    description := some m.Description
    position := some m.Position
    restriction := some m.Restriction
    active := some m.Active
    actions := some m.Actions }

/-! ### The lifecycle adapter -/

/-- One remote-API invocation, as recorded in the call trace. -/
inductive RemoteCall
  | create (m : Macro)
  | get (id : Int)
  | update (id : Int) (m : Macro)
  | delete (id : Int)
deriving DecidableEq

/-- The remote-API capability interface `client.MacroAPI` restricted to
the four methods the adapter uses; `Except.error` / `some` model a
non-nil Go error. -/
structure MacroAPI where
  createMacro : Macro → Except String Macro
  getMacro : Int → Except String Macro
  updateMacro : Int → Macro → Except String Macro
  deleteMacro : Int → Option String

/-- Outcome of one lifecycle operation: the diagnostics returned, the
bag as left behind, and the trace of remote calls issued. -/
structure LifecycleResult where
  diags : List String
  bag : AttributeBag
  calls : List RemoteCall
deriving DecidableEq

/-- `diag.FromErr`: one error becomes exactly one diagnostic entry. -/
def diagFromErr (e : String) : List String :=
  [e]

/-- `createMacro`: decode the bag, call the remote create, set the bag's
identifier slot to the decimal rendering of the returned id, encode the
returned macro back into the bag. -/
def createMacro (d : AttributeBag) (zd : MacroAPI) : LifecycleResult :=
  match unmarshalMacro d with
  | Except.error e => ⟨diagFromErr e, d, []⟩
  | Except.ok m =>
    match zd.createMacro m with
    | Except.error e => ⟨diagFromErr e, d, [RemoteCall.create m]⟩
    | Except.ok m2 =>
      let d2 := { d with id := intDecimalString m2.ID }
      ⟨[], marshalMacro m2 d2, [RemoteCall.create m]⟩

/-- `readMacro`: parse the bag's identifier, call the remote get, encode
the result into the bag. -/
def readMacro (d : AttributeBag) (zd : MacroAPI) : LifecycleResult :=
  match parseInt64 d.id with
  | none => ⟨diagFromErr ("could not parse id " ++ d.id), d, []⟩
  | some i =>
    match zd.getMacro i with
    | Except.error e => ⟨diagFromErr e, d, [RemoteCall.get i]⟩
    | Except.ok m => ⟨[], marshalMacro m d, [RemoteCall.get i]⟩

/-- `updateMacro`: decode the bag, parse the bag's identifier
separately, call the remote update with the parsed id and the decoded
macro, encode the result into the bag. -/
def updateMacro (d : AttributeBag) (zd : MacroAPI) : LifecycleResult :=
  match unmarshalMacro d with
  | Except.error e => ⟨diagFromErr e, d, []⟩
  | Except.ok m =>
    match parseInt64 d.id with
    | none => ⟨diagFromErr ("could not parse id " ++ d.id), d, []⟩
    | some i =>
      match zd.updateMacro i m with
      | Except.error e => ⟨diagFromErr e, d, [RemoteCall.update i m]⟩
      | Except.ok m2 => ⟨[], marshalMacro m2 d, [RemoteCall.update i m]⟩

/-- `deleteMacro`: parse the bag's identifier, call the remote delete;
the bag is never written. -/
def deleteMacro (d : AttributeBag) (zd : MacroAPI) : LifecycleResult :=
  match parseInt64 d.id with
  | none => ⟨diagFromErr ("could not parse id " ++ d.id), d, []⟩
  | some i =>
    match zd.deleteMacro i with
    | some e => ⟨diagFromErr e, d, [RemoteCall.delete i]⟩
    | none => ⟨[], d, [RemoteCall.delete i]⟩

end ZendeskMacro

namespace ZendeskMacro

theorem digitVal?_digitChar (d : Nat) (h : d < 10) :
    digitVal? (digitChar d) = some d := by
  interval_cases d <;> decide

theorem digitChar_toNat (d : Nat) (h : d < 10) :
    48 ≤ (digitChar d).toNat ∧ (digitChar d).toNat ≤ 57 := by
  interval_cases d <;> decide

theorem digitsVal?_append (l1 l2 : List Char) (acc : Nat) :
    digitsVal? (l1 ++ l2) acc =
      (digitsVal? l1 acc).bind (fun v => digitsVal? l2 v) := by
  induction l1 generalizing acc with
  | nil => rfl
  | cons c cs ih =>
    simp only [List.cons_append, digitsVal?]
    cases digitVal? c with
    | none => rfl
    | some v => exact ih _

theorem natToRevDigitsAux_zero (fuel : Nat) :
    natToRevDigitsAux fuel 0 = [] := by
  cases fuel <;> simp [natToRevDigitsAux]

theorem digitsVal?_natToRevDigitsAux (fuel : Nat) :
    ∀ n acc, n ≠ 0 → n ≤ fuel →
      digitsVal? ((natToRevDigitsAux fuel n).reverse) acc =
        some (acc * 10 ^ (natToRevDigitsAux fuel n).length + n) := by
  induction fuel with
  | zero => intro n acc hn hle; omega
  | succ f ih =>
    intro n acc hn hle
    rw [natToRevDigitsAux]
    simp only [hn, if_false]
    rw [List.reverse_cons, digitsVal?_append]
    by_cases hq : n / 10 = 0
    · rw [hq, natToRevDigitsAux_zero]
      simp only [List.reverse_nil, digitsVal?, Option.some_bind]
      rw [digitVal?_digitChar _ (Nat.mod_lt _ (by norm_num))]
      simp only [digitsVal?, List.length_cons, List.length_nil]
      have : n % 10 = n := by omega
      rw [this]
      norm_num
    · have hq' : n / 10 ≤ f := by
        have := Nat.div_lt_self (Nat.pos_of_ne_zero hn) (by norm_num : 1 < 10)
        omega
      rw [ih (n / 10) acc hq hq', Option.some_bind]
      simp only [digitsVal?]
      rw [digitVal?_digitChar _ (Nat.mod_lt _ (by norm_num))]
      simp only [digitsVal?, List.length_cons]
      congr 1
      calc (acc * 10 ^ (natToRevDigitsAux f (n / 10)).length + n / 10) * 10
            + n % 10
          = acc * (10 ^ (natToRevDigitsAux f (n / 10)).length * 10)
            + (10 * (n / 10) + n % 10) := by ring
        _ = acc * 10 ^ ((natToRevDigitsAux f (n / 10)).length + 1) + n := by
            rw [Nat.div_add_mod, pow_succ]

theorem mem_natToRevDigitsAux (fuel : Nat) :
    ∀ n c, c ∈ natToRevDigitsAux fuel n → 48 ≤ c.toNat ∧ c.toNat ≤ 57 := by
  induction fuel with
  | zero => intro n c hc; simp [natToRevDigitsAux] at hc
  | succ f ih =>
    intro n c hc
    rw [natToRevDigitsAux] at hc
    by_cases hn : n = 0
    · simp [hn] at hc
    · simp only [hn, if_false, List.mem_cons] at hc
      cases hc with
      | inl h => exact h ▸ digitChar_toNat _ (Nat.mod_lt _ (by norm_num))
      | inr h => exact ih _ _ h

theorem natDecimalChars_spec (m : Nat) :
    digitsVal? (natDecimalChars m) 0 = some m ∧
    natDecimalChars m ≠ [] ∧
    ∀ c ∈ natDecimalChars m, 48 ≤ c.toNat ∧ c.toNat ≤ 57 := by
  by_cases hm : m = 0
  · subst hm
    refine ⟨rfl, by decide, ?_⟩
    intro c hc
    simp [natDecimalChars] at hc
    subst hc; decide
  · unfold natDecimalChars natToRevDigits
    simp only [hm, if_false]
    have hval := digitsVal?_natToRevDigitsAux m m 0 hm (le_refl m)
    simp only [Nat.zero_mul, Nat.zero_add] at hval
    refine ⟨hval, ?_, ?_⟩
    · intro hnil
      rw [hnil] at hval
      simp [digitsVal?] at hval
      omega
    · intro c hc
      exact mem_natToRevDigitsAux m m c (List.mem_reverse.mp hc)

theorem parseInt64Core_natDecimalChars_pos (m : Nat)
    (h2 : (m : Int) ≤ int64Max) :
    parseInt64Core (natDecimalChars m) false = some (m : Int) := by
  obtain ⟨hval, hne, _⟩ := natDecimalChars_spec m
  rcases hl : natDecimalChars m with _ | ⟨c, cs⟩
  · exact absurd hl hne
  · rw [hl] at hval
    show parseInt64Core (c :: cs) false = some (m : Int)
    unfold parseInt64Core
    rw [hval]
    have hrange : int64Min ≤ (m : Int) ∧ (m : Int) ≤ int64Max := by
      refine ⟨?_, h2⟩
      have : (0 : Int) ≤ (m : Int) := Int.natCast_nonneg m
      unfold int64Min
      omega
    simp [hrange]

theorem parseInt64Core_natDecimalChars_neg (m : Nat)
    (h1 : int64Min ≤ -(m : Int)) :
    parseInt64Core (natDecimalChars m) true = some (-(m : Int)) := by
  obtain ⟨hval, hne, _⟩ := natDecimalChars_spec m
  rcases hl : natDecimalChars m with _ | ⟨c, cs⟩
  · exact absurd hl hne
  · rw [hl] at hval
    show parseInt64Core (c :: cs) true = some (-(m : Int))
    unfold parseInt64Core
    rw [hval]
    have hrange : int64Min ≤ -(m : Int) ∧ -(m : Int) ≤ int64Max := by
      refine ⟨h1, ?_⟩
      have : (0 : Int) ≤ (m : Int) := Int.natCast_nonneg m
      unfold int64Max
      omega
    simp [hrange]

theorem parseInt64_neg_cons (cs : List Char) :
    parseInt64 ⟨'-' :: cs⟩ = parseInt64Core cs true := rfl

theorem parseInt64_cons (c : Char) (cs : List Char)
    (h1 : c ≠ '-') (h2 : c ≠ '+') :
    parseInt64 ⟨c :: cs⟩ = parseInt64Core (c :: cs) false := by
  show (if c = '-' then parseInt64Core cs true
        else if c = '+' then parseInt64Core cs false
        else parseInt64Core (c :: cs) false) = parseInt64Core (c :: cs) false
  rw [if_neg h1, if_neg h2]

theorem parseInt64_intDecimalString (v : Int)
    (h1 : int64Min ≤ v) (h2 : v ≤ int64Max) :
    parseInt64 (intDecimalString v) = some v := by
  unfold intDecimalString intDecimalChars
  by_cases hv : v < 0
  · simp only [hv, if_true]
    have hneg : -((-v).toNat : Int) = v := by
      have := Int.toNat_of_nonneg (show (0 : Int) ≤ -v by omega)
      omega
    show parseInt64 ⟨'-' :: natDecimalChars (-v).toNat⟩ = some v
    rw [parseInt64_neg_cons]
    rw [parseInt64Core_natDecimalChars_neg (-v).toNat (by rw [hneg]; exact h1)]
    rw [hneg]
  · simp only [hv, if_false]
    have hcast : ((v.toNat : Nat) : Int) = v :=
      Int.toNat_of_nonneg (by omega)
    obtain ⟨hval, hne, hmem⟩ := natDecimalChars_spec v.toNat
    rcases hl : natDecimalChars v.toNat with _ | ⟨c, cs⟩
    · exact absurd hl hne
    · have hcb : 48 ≤ c.toNat ∧ c.toNat ≤ 57 := by
        refine hmem c ?_
        rw [hl]
        exact List.mem_cons_self _ _
      have hcminus : c ≠ '-' := by
        intro hh; rw [hh] at hcb; revert hcb; decide
      have hcplus : c ≠ '+' := by
        intro hh; rw [hh] at hcb; revert hcb; decide
      rw [parseInt64_cons c cs hcminus hcplus, ← hl]
      rw [parseInt64Core_natDecimalChars_pos v.toNat (by rw [hcast]; exact h2)]
      rw [hcast]

theorem intDecimalChars_ne_nil (v : Int) : intDecimalChars v ≠ [] := by
  unfold intDecimalChars
  by_cases hv : v < 0
  · simp only [hv, if_true]
    exact List.cons_ne_nil _ _
  · simp only [hv, if_false]
    exact (natDecimalChars_spec v.toNat).2.1

theorem intDecimalString_ne_empty (v : Int) : intDecimalString v ≠ "" := by
  intro h
  exact intDecimalChars_ne_nil v (congrArg String.data h)

end ZendeskMacro

namespace ZendeskMacro

/-- The macro a successful decode produces: the given id, each optional
field taken from the bag when present and the Go zero value otherwise. -/
def decodedMacro (i : Int) (d : AttributeBag) : Macro :=
  { ID := i
    URL := d.url.getD ""
    Title := d.title.getD ""
    Description := d.description.getD ""
    Position := d.position.getD 0
    Active := d.active.getD false
    Restriction := d.restriction.getD ""
    Actions := d.actions.getD [] }

theorem setURLIfPresent_spec (m : Macro) (o : Option String) :
    setURLIfPresent m o = { m with URL := o.getD m.URL } := by
  cases o <;> rfl

theorem setTitleIfPresent_spec (m : Macro) (o : Option String) :
    setTitleIfPresent m o = { m with Title := o.getD m.Title } := by
  cases o <;> rfl

theorem setDescriptionIfPresent_spec (m : Macro) (o : Option String) :
    setDescriptionIfPresent m o = { m with Description := o.getD m.Description } := by
  cases o <;> rfl

theorem setPositionIfPresent_spec (m : Macro) (o : Option Int) :
    setPositionIfPresent m o = { m with Position := o.getD m.Position } := by
  cases o <;> rfl

theorem setActiveIfPresent_spec (m : Macro) (o : Option Bool) :
    setActiveIfPresent m o = { m with Active := o.getD m.Active } := by
  cases o <;> rfl

theorem setRestrictionIfPresent_spec (m : Macro) (o : Option String) :
    setRestrictionIfPresent m o = { m with Restriction := o.getD m.Restriction } := by
  cases o <;> rfl

theorem appendActionsIfPresent_spec (m : Macro) (o : Option (List MacroAction)) :
    appendActionsIfPresent m o = { m with Actions := m.Actions ++ o.getD [] } := by
  cases o with
  | none =>
    show m = { m with Actions := m.Actions ++ [] }
    rw [List.append_nil]
  | some l => rfl

theorem unmarshalMacro_eq (d : AttributeBag) :
    unmarshalMacro d =
      (if d.id = "" then Except.ok (decodedMacro 0 d)
       else
         match parseInt64 d.id with
         | none =>
           Except.error ("could not parse ticket field id " ++ d.id)
         | some i => Except.ok (decodedMacro i d)) := by
  unfold unmarshalMacro
  by_cases hid : d.id = ""
  · rw [if_pos hid, if_pos hid]
    simp only [setURLIfPresent_spec, setTitleIfPresent_spec,
      setDescriptionIfPresent_spec, setPositionIfPresent_spec,
      setActiveIfPresent_spec, setRestrictionIfPresent_spec,
      appendActionsIfPresent_spec, decodedMacro, List.nil_append]
  · rw [if_neg hid, if_neg hid]
    rcases hp : parseInt64 d.id with _ | i
    · rfl
    · simp only [setURLIfPresent_spec, setTitleIfPresent_spec,
        setDescriptionIfPresent_spec, setPositionIfPresent_spec,
        setActiveIfPresent_spec, setRestrictionIfPresent_spec,
        appendActionsIfPresent_spec, decodedMacro, List.nil_append]

end ZendeskMacro

namespace ZendeskMacro

theorem parseInt64_empty : parseInt64 "" = none := rfl

theorem unmarshalMacro_ok_of_parse (d : AttributeBag) (i : Int)
    (h : parseInt64 d.id = some i) :
    unmarshalMacro d = Except.ok (decodedMacro i d) := by
  have hne : d.id ≠ "" := by
    intro hid
    rw [hid, parseInt64_empty] at h
    exact Option.noConfusion h
  rw [unmarshalMacro_eq, if_neg hne, h]

theorem unmarshalMacro_ok_shape (d : AttributeBag) (m : Macro)
    (h : unmarshalMacro d = Except.ok m) :
    ∃ i, m = decodedMacro i d ∧ (d.id = "" → i = 0) ∧
      (d.id ≠ "" → parseInt64 d.id = some i) := by
  rw [unmarshalMacro_eq] at h
  by_cases hid : d.id = ""
  · rw [if_pos hid] at h
    simp only [Except.ok.injEq] at h
    exact ⟨0, h.symm, fun _ => rfl, fun hne => absurd hid hne⟩
  · rw [if_neg hid] at h
    rcases hp : parseInt64 d.id with _ | i
    · rw [hp] at h
      simp at h
    · rw [hp] at h
      simp only [Except.ok.injEq] at h
      exact ⟨i, h.symm, fun he => absurd he hid, fun _ => rfl⟩

/-! ### Test doubles for the remote client -/

/-- A remote client that echoes its arguments. -/
def echoAPI : MacroAPI :=
  { createMacro := fun m => Except.ok m
    getMacro := fun i => Except.ok { ID := i }
    updateMacro := fun _ m => Except.ok m
    deleteMacro := fun _ => none }

/-- A remote client whose every call fails. -/
def failAPI : MacroAPI :=
  { createMacro := fun _ => Except.error "create failed"
    getMacro := fun _ => Except.error "get failed"
    updateMacro := fun _ _ => Except.error "update failed"
    deleteMacro := fun _ => some "delete failed" }

/-- A remote client that assigns id 777 on create. -/
def assign777API : MacroAPI :=
  { createMacro := fun m => Except.ok { m with ID := 777 }
    getMacro := fun i => Except.ok { ID := i }
    updateMacro := fun _ m => Except.ok m
    deleteMacro := fun _ => none }

end ZendeskMacro

namespace ZendeskMacro

/-! ### Branch lemmas for the four lifecycle operations -/

theorem createMacro_decode_error (d : AttributeBag) (zd : MacroAPI)
    (e : String) (hu : unmarshalMacro d = Except.error e) :
    createMacro d zd = ⟨[e], d, []⟩ := by
  unfold createMacro
  simp only [hu, diagFromErr]

theorem createMacro_remote_error (d : AttributeBag) (zd : MacroAPI)
    (m : Macro) (e : String) (hu : unmarshalMacro d = Except.ok m)
    (hc : zd.createMacro m = Except.error e) :
    createMacro d zd = ⟨[e], d, [RemoteCall.create m]⟩ := by
  unfold createMacro
  simp only [hu, hc, diagFromErr]

theorem createMacro_remote_ok (d : AttributeBag) (zd : MacroAPI)
    (m m2 : Macro) (hu : unmarshalMacro d = Except.ok m)
    (hc : zd.createMacro m = Except.ok m2) :
    createMacro d zd =
      ⟨[], marshalMacro m2 { d with id := intDecimalString m2.ID },
        [RemoteCall.create m]⟩ := by
  unfold createMacro
  simp only [hu, hc]

theorem readMacro_parse_error (d : AttributeBag) (zd : MacroAPI)
    (hp : parseInt64 d.id = none) :
    readMacro d zd = ⟨["could not parse id " ++ d.id], d, []⟩ := by
  unfold readMacro
  simp only [hp, diagFromErr]

theorem updateMacro_decode_error (d : AttributeBag) (zd : MacroAPI)
    (e : String) (hu : unmarshalMacro d = Except.error e) :
    updateMacro d zd = ⟨[e], d, []⟩ := by
  unfold updateMacro
  simp only [hu, diagFromErr]

theorem updateMacro_parse_error (d : AttributeBag) (zd : MacroAPI)
    (m : Macro) (hu : unmarshalMacro d = Except.ok m)
    (hp : parseInt64 d.id = none) :
    updateMacro d zd = ⟨["could not parse id " ++ d.id], d, []⟩ := by
  unfold updateMacro
  simp only [hu, hp, diagFromErr]

theorem deleteMacro_parse_error (d : AttributeBag) (zd : MacroAPI)
    (hp : parseInt64 d.id = none) :
    deleteMacro d zd = ⟨["could not parse id " ++ d.id], d, []⟩ := by
  unfold deleteMacro
  simp only [hp, diagFromErr]

theorem deleteMacro_remote_ok (d : AttributeBag) (zd : MacroAPI) (i : Int)
    (hp : parseInt64 d.id = some i) (hd : zd.deleteMacro i = none) :
    deleteMacro d zd = ⟨[], d, [RemoteCall.delete i]⟩ := by
  unfold deleteMacro
  simp only [hp, hd]

end ZendeskMacro

namespace ZendeskMacro

/-! ### Claims -/

/-- C1: for every Macro `m` with a valid (int64-range) id, decoding the
bag produced by encoding `m` into a bag whose identifier slot holds the
base-10 decimal string of `m`'s id yields `m` back exactly — all seven
fields, action list order included. -/
theorem decode_encode_roundtrip (m : Macro) (d : AttributeBag)
    (h1 : int64Min ≤ m.ID) (h2 : m.ID ≤ int64Max)
    (hd : d.id = intDecimalString m.ID) :
    unmarshalMacro (marshalMacro m d) = Except.ok m := by
  have hparse : parseInt64 ((marshalMacro m d).id) = some m.ID := by
    have hid : (marshalMacro m d).id = intDecimalString m.ID := hd
    rw [hid]
    exact parseInt64_intDecimalString m.ID h1 h2
  rw [unmarshalMacro_ok_of_parse (marshalMacro m d) m.ID hparse]
  cases m
  rfl

/-- Witness for C1 at a concrete macro and bag. -/
theorem decode_encode_roundtrip_witness :
    unmarshalMacro
        (marshalMacro
          { ID := 5, URL := "u", Title := "T", Description := "D",
            Position := 3, Active := false, Restriction := "R",
            Actions := [⟨"status", "open"⟩] }
          { id := "5" }) =
      Except.ok
        { ID := 5, URL := "u", Title := "T", Description := "D",
          Position := 3, Active := false, Restriction := "R",
          Actions := [⟨"status", "open"⟩] } :=
  decode_encode_roundtrip
    { ID := 5, URL := "u", Title := "T", Description := "D",
      Position := 3, Active := false, Restriction := "R",
      Actions := [⟨"status", "open"⟩] }
    { id := "5" } (by decide) (by decide) rfl

/-- C2 counterexample: a bag omitting `active` (only title and actions
present) decodes to a Macro whose active field is false, not the
Schema Descriptor default true. -/
theorem absent_active_decodes_false_cex :
    (unmarshalMacro
        { title := some "T",
          actions := some [⟨"status", "open"⟩] }).map Macro.Active =
      Except.ok false := rfl

/-- C2 (amended): for every bag in which `active` is absent,
unmarshalMacro succeeds with active equal to false, the Go zero value:
the decode applies no default; the declared default `true` is
materialized into the bag by the orchestrator, not by unmarshalMacro. -/
theorem absent_active_decodes_to_zero (d : AttributeBag) (m : Macro)
    (ha : d.active = none) (h : unmarshalMacro d = Except.ok m) :
    m.Active = false := by
  obtain ⟨i, rfl, -, -⟩ := unmarshalMacro_ok_shape d m h
  simp [decodedMacro, ha]

/-- Witness for the amended C2 at a concrete bag. -/
theorem absent_active_decodes_to_zero_witness :
    ({ title := some "T" } : AttributeBag).active = none ∧
      ({ Title := "T" } : Macro).Active = false :=
  ⟨rfl,
    absent_active_decodes_to_zero { title := some "T" } { Title := "T" }
      rfl rfl⟩

/-- C3 counterexample: with the bag identifier slot pre-populated to
"42", the Macro handed to the remote CreateMacro call carries id 42,
taken from the bag's identifier slot — it is not ignored. -/
theorem create_sends_bag_id_cex :
    (createMacro { id := "42", title := some "T" } echoAPI).calls =
      [RemoteCall.create { ID := 42, Title := "T" }] := by
  decide

/-- C3 (amended): createMacro sends to CreateMacro exactly the Macro
decoded from the bag, so the id it carries is 0 precisely when the
bag's identifier slot is empty (the normal create path); a
pre-populated parseable identifier is passed through, not ignored. -/
theorem create_sends_decoded_macro (d : AttributeBag) (zd : MacroAPI)
    (m : Macro) (h : RemoteCall.create m ∈ (createMacro d zd).calls) :
    unmarshalMacro d = Except.ok m ∧ (d.id = "" → m.ID = 0) ∧
      (∀ i, parseInt64 d.id = some i → m.ID = i) := by
  rcases hu : unmarshalMacro d with e | m'
  · rw [createMacro_decode_error d zd e hu] at h
    simp at h
  · have hm : m = m' := by
      rcases hc : zd.createMacro m' with e | m2
      · rw [createMacro_remote_error d zd m' e hu hc] at h
        simp at h
        exact h
      · rw [createMacro_remote_ok d zd m' m2 hu hc] at h
        simp at h
        exact h
    subst hm
    refine ⟨rfl, ?_, ?_⟩
    · intro hid
      obtain ⟨i, rfl, hz, -⟩ := unmarshalMacro_ok_shape d _ hu
      simp [decodedMacro, hz hid]
    · intro i hp
      obtain ⟨j, rfl, -, hnz⟩ := unmarshalMacro_ok_shape d _ hu
      have hne : d.id ≠ "" := by
        intro hid
        rw [hid, parseInt64_empty] at hp
        exact Option.noConfusion hp
      have hj := hnz hne
      rw [hp] at hj
      injection hj with hj'
      simp [decodedMacro, hj']

/-- Witness for the amended C3 at a concrete bag and client. -/
theorem create_sends_decoded_macro_witness :
    unmarshalMacro { title := some "T" } = Except.ok { Title := "T" } ∧
      (({ title := some "T" } : AttributeBag).id = "" →
        ({ Title := "T" } : Macro).ID = 0) ∧
      (∀ i, parseInt64 ({ title := some "T" } : AttributeBag).id = some i →
        ({ Title := "T" } : Macro).ID = i) :=
  create_sends_decoded_macro { title := some "T" } echoAPI { Title := "T" }
    (by decide)

end ZendeskMacro

namespace ZendeskMacro

/-- C4: Read, Update and Delete invoked on a bag whose identifier slot
does not parse as a base-10 int64 each return exactly one diagnostic,
leave the bag unchanged and issue no remote call. -/
theorem malformed_id_rejected (d : AttributeBag) (zd : MacroAPI)
    (h : parseInt64 d.id = none) :
    (∃ e, readMacro d zd = ⟨[e], d, []⟩) ∧
      (∃ e, updateMacro d zd = ⟨[e], d, []⟩) ∧
      (∃ e, deleteMacro d zd = ⟨[e], d, []⟩) := by
  refine ⟨⟨_, readMacro_parse_error d zd h⟩, ?_,
    ⟨_, deleteMacro_parse_error d zd h⟩⟩
  rcases hu : unmarshalMacro d with e | m
  · exact ⟨e, updateMacro_decode_error d zd e hu⟩
  · exact ⟨_, updateMacro_parse_error d zd m hu h⟩

/-- Witness for C4 at the bag identifier "abc". -/
theorem malformed_id_rejected_witness :
    (∃ e, readMacro { id := "abc" } echoAPI = ⟨[e], { id := "abc" }, []⟩) ∧
      (∃ e, updateMacro { id := "abc" } echoAPI =
        ⟨[e], { id := "abc" }, []⟩) ∧
      (∃ e, deleteMacro { id := "abc" } echoAPI =
        ⟨[e], { id := "abc" }, []⟩) :=
  malformed_id_rejected { id := "abc" } echoAPI rfl

/-- C5: against a remote client whose CreateMacro always fails,
createMacro returns exactly one diagnostic and performs no bag
mutation: the identifier slot is not set and nothing is encoded. -/
theorem create_remote_failure_no_mutation (d : AttributeBag)
    (zd : MacroAPI)
    (h : ∀ m, ∃ e, zd.createMacro m = Except.error e) :
    ∃ e, (createMacro d zd).diags = [e] ∧ (createMacro d zd).bag = d := by
  rcases hu : unmarshalMacro d with e | m
  · rw [createMacro_decode_error d zd e hu]
    exact ⟨e, rfl, rfl⟩
  · obtain ⟨e, he⟩ := h m
    rw [createMacro_remote_error d zd m e hu he]
    exact ⟨e, rfl, rfl⟩

/-- Witness for C5 at a concrete bag and an always-failing client. -/
theorem create_remote_failure_no_mutation_witness :
    ∃ e, (createMacro { title := some "T" } failAPI).diags = [e] ∧
      (createMacro { title := some "T" } failAPI).bag =
        { title := some "T" } :=
  create_remote_failure_no_mutation { title := some "T" } failAPI
    (fun _ => ⟨"create failed", rfl⟩)

/-- C6: unmarshalMacro fails exactly when the bag's identifier slot is
non-empty and does not parse as a base-10 int64; every bag with an
empty or parseable identifier decodes successfully (no other field can
cause a decode failure). -/
theorem decode_fails_iff_bad_id (d : AttributeBag) :
    (∃ e, unmarshalMacro d = Except.error e) ↔
      (d.id ≠ "" ∧ parseInt64 d.id = none) := by
  rw [unmarshalMacro_eq]
  by_cases hid : d.id = ""
  · rw [if_pos hid]
    simp [hid]
  · rw [if_neg hid]
    rcases hp : parseInt64 d.id with _ | i
    · simp [hid, hp]
    · simp [hid, hp]

/-- C7: after a successful create whose remote-assigned id is N (in
int64 range), createMacro returns no diagnostics, the bag's identifier
slot equals the base-10 decimal string of N, and parsing that string
back yields N. -/
theorem create_sets_id (d : AttributeBag) (zd : MacroAPI) (m m2 : Macro)
    (hu : unmarshalMacro d = Except.ok m)
    (hc : zd.createMacro m = Except.ok m2)
    (h1 : int64Min ≤ m2.ID) (h2 : m2.ID ≤ int64Max) :
    (createMacro d zd).diags = [] ∧
      (createMacro d zd).bag.id = intDecimalString m2.ID ∧
      parseInt64 ((createMacro d zd).bag.id) = some m2.ID := by
  rw [createMacro_remote_ok d zd m m2 hu hc]
  refine ⟨rfl, rfl, ?_⟩
  show parseInt64 (intDecimalString m2.ID) = some m2.ID
  exact parseInt64_intDecimalString m2.ID h1 h2

/-- Witness for C7: the client assigns id 777 and the bag ends with
identifier "777". -/
theorem create_sets_id_witness :
    (createMacro { title := some "T" } assign777API).diags = [] ∧
      (createMacro { title := some "T" } assign777API).bag.id =
        intDecimalString 777 ∧
      parseInt64 ((createMacro { title := some "T" } assign777API).bag.id) =
        some 777 :=
  create_sets_id { title := some "T" } assign777API { Title := "T" }
    { ID := 777, Title := "T" } rfl rfl (by decide) (by decide)

/-- C8: a delete whose identifier parses and whose remote call succeeds
returns no diagnostics and leaves the whole bag — identifier slot and
every readable field — exactly as it was. -/
theorem delete_no_mutation (d : AttributeBag) (zd : MacroAPI) (i : Int)
    (hp : parseInt64 d.id = some i) (hd : zd.deleteMacro i = none) :
    deleteMacro d zd = ⟨[], d, [RemoteCall.delete i]⟩ :=
  deleteMacro_remote_ok d zd i hp hd

/-- Witness for C8 at the bag identifier "12345". -/
theorem delete_no_mutation_witness :
    deleteMacro { id := "12345" } echoAPI =
      ⟨[], { id := "12345" }, [RemoteCall.delete 12345]⟩ :=
  delete_no_mutation { id := "12345" } echoAPI 12345 (by decide) rfl

/-- C9: whenever the bag's `actions` key holds a list, any successful
decode returns a Macro whose action list is exactly that list, in the
bag's order. -/
theorem actions_order_preserved (d : AttributeBag)
    (l : List MacroAction) (m : Macro) (ha : d.actions = some l)
    (h : unmarshalMacro d = Except.ok m) :
    m.Actions = l := by
  obtain ⟨i, rfl, -, -⟩ := unmarshalMacro_ok_shape d m h
  simp [decodedMacro, ha]

/-- Witness for C9 at the two-action example bag:
[{status, open}, {priority, high}] decodes in that order. -/
theorem actions_order_preserved_witness :
    ({ title := some "T",
        actions := some [⟨"status", "open"⟩, ⟨"priority", "high"⟩] } :
          AttributeBag).actions =
        some [⟨"status", "open"⟩, ⟨"priority", "high"⟩] ∧
      ({ Title := "T",
          Actions := [⟨"status", "open"⟩, ⟨"priority", "high"⟩] } :
            Macro).Actions =
        [⟨"status", "open"⟩, ⟨"priority", "high"⟩] :=
  ⟨rfl,
    actions_order_preserved
      { title := some "T",
        actions := some [⟨"status", "open"⟩, ⟨"priority", "high"⟩] }
      [⟨"status", "open"⟩, ⟨"priority", "high"⟩]
      { Title := "T",
        Actions := [⟨"status", "open"⟩, ⟨"priority", "high"⟩] }
      rfl rfl⟩

/-- C10: whenever updateMacro reaches the remote update call (decode
and the direct identifier parse both succeeded), the call it issues is
`UpdateMacro i m` where the separately parsed identifier `i` equals the
decoded Macro's ID field — the two can never disagree. -/
theorem update_id_consistent (d : AttributeBag) (zd : MacroAPI)
    (i : Int) (m : Macro) (hu : unmarshalMacro d = Except.ok m)
    (hp : parseInt64 d.id = some i) :
    (updateMacro d zd).calls = [RemoteCall.update i m] ∧ i = m.ID := by
  constructor
  · unfold updateMacro
    simp only [hu, hp]
    rcases zd.updateMacro i m with e | m2 <;> rfl
  · obtain ⟨j, rfl, -, hnz⟩ := unmarshalMacro_ok_shape d m hu
    have hne : d.id ≠ "" := by
      intro hid
      rw [hid, parseInt64_empty] at hp
      exact Option.noConfusion hp
    have hj := hnz hne
    rw [hp] at hj
    injection hj with hj'

/-- Witness for C10 at the bag identifier "5". -/
theorem update_id_consistent_witness :
    (updateMacro { id := "5", title := some "T" } echoAPI).calls =
        [RemoteCall.update 5 { ID := 5, Title := "T" }] ∧
      (5 : Int) = ({ ID := 5, Title := "T" } : Macro).ID :=
  update_id_consistent { id := "5", title := some "T" } echoAPI 5
    { ID := 5, Title := "T" } rfl (by decide)

end ZendeskMacro
